import Mathlib

/-!
Shallow embedding of the Coloring_Pipeline repository
(src/process_coloring_pipeline.py and src/process_coloring_pipeline_adv.py).

Both scripts are orchestration drivers around three external tools
(magick, potrace, inkscape).  The embedding models:

* the configuration constants of the advanced script;
* file names as stem/extension pairs with a content-identity tag;
* the workspace-root relocation loop of `main` (identical in both scripts);
* the tool-resolution check (`require_tool`, called for magick, inkscape,
  potrace in that order, exiting with status 1 at the first missing tool);
* the per-file four-stage pipeline (clean, trace, export png, export pdf)
  with its existence-based skip check;
* `detect_color_mode` and `clean_png` of the advanced script (command
  construction and auto-mode resolution);
* `clean_png` of the basic script (fixed command);
* `trace_svg` (pipe of two processes; identical in both scripts).

External effects are represented as an explicit event trace; the outcome of
each external invocation is an input of the model (an environment field),
since the external tools themselves are out of scope.
-/

namespace ColoringPipeline

/-- Configuration constant of the advanced script: `THRESHOLD_PERCENT = "65%"`. -/
def THRESHOLD_PERCENT : String := "65%"

/-- Configuration constant of the advanced script: `POSTERIZE_COLORS = "8"`. -/
def POSTERIZE_COLORS : String := "8"

/-- Configuration constant of the advanced script: `LEVEL_ADJUSTMENT = "0%,80%"`. -/
def LEVEL_ADJUSTMENT : String := "0%,80%"

/-- Configuration constant of the basic script: `THRESHOLD_PERCENT = "60%"`. -/
def THRESHOLD_PERCENT_BASIC : String := "60%"

/-- The saturation threshold `0.05` of `detect_color_mode`, as an exact rational. -/
def SATURATION_THRESHOLD : ℚ := 5 / 100

/-- Supported extensions (lowercase), from
`SUPPORTED_EXTS = {".png", ".jpg", ".jpeg", ".bmp", ".tiff", ".tif", ".webp"}`. -/
def SUPPORTED_EXTS : List String :=
  [".png", ".jpg", ".jpeg", ".bmp", ".tiff", ".tif", ".webp"]

/-- A directory entry.  `stem`/`ext` model pathlib's `Path.stem` and
`Path.suffix` (the extension carries its leading dot, or is empty); `isFile`
models `is_file()`; `fid` is a content-identity tag used to state that a move
transfers the very same file rather than a copy. -/
structure FsFile where
  stem : String
  ext : String
  isFile : Bool
  fid : Nat
deriving DecidableEq

/-- The full file name, `stem + suffix` as pathlib's `Path.name`. -/
def FsFile.name (f : FsFile) : String := f.stem ++ f.ext

/-- Lowercases an ASCII letter, as Python's `str.lower()` does on the ASCII
range relevant to file extensions. -/
def lowerChar (c : Char) : Char :=
  if 65 ≤ c.toNat ∧ c.toNat ≤ 90 then Char.ofNat (c.toNat + 32) else c

/-- Lowercasing of a string, modelling `suffix.lower()` (ASCII range). -/
def lowerString (s : String) : String := String.mk (s.data.map lowerChar)

/-- The four external pipeline stages invoked per file. -/
inductive Stage where
  | clean
  | trace
  | exportPng
  | exportPdf
deriving DecidableEq

/-- Observable effects of a run, in order of occurrence. -/
inductive Event where
  | printedUsage (s : String)
  | mkdirDone (d : String)
  | movedFile (n : String)
  | skipMoveLogged (n : String)
  | toolChecked (t : String)
  | processingLogged (n : String)
  | skipLogged (n : String)
  | stageInvoked (n : String) (s : Stage)
  | failLogged (n : String)
  | warnedNoInput
deriving DecidableEq

/-- The five stage directories created by `main`
(`INPUT, CLEANED, SVG, PNG, PDF`). -/
def STAGE_DIRS : List String := ["input_png", "cleaned_png", "svg", "png", "pdf"]

/-- Path of the cleaned raster for a stem: `CLEANED / f"{stem}.png"`. -/
def cleaned_path (stem : String) : String := "cleaned_png/" ++ stem ++ ".png"

/-- Path of the vector trace for a stem: `SVG / f"{stem}.svg"`. -/
def svg_path (stem : String) : String := "svg/" ++ stem ++ ".svg"

/-- Path of the exported raster for a stem: `PNG / f"{stem}.png"`. -/
def png_path (stem : String) : String := "png/" ++ stem ++ ".png"

/-- Path of the exported document for a stem: `PDF / f"{stem}.pdf"`. -/
def pdf_path (stem : String) : String := "pdf/" ++ stem ++ ".pdf"

/-- The four derived-artifact paths computed from a stem, in the order the
driver computes them (`cleaned_png, svg_file, out_png, out_pdf`). -/
def derived_paths (stem : String) : List String :=
  [cleaned_path stem, svg_path stem, png_path stem, pdf_path stem]

/-- The derived-artifact paths of a source file, computed from its stem alone
(`stem = src_file.stem` in `main`). -/
def derived_paths_of (f : FsFile) : List String := derived_paths f.stem

/-- Ways the saturation probe of `detect_color_mode` can fail: the external
invocation exits nonzero (`subprocess.CalledProcessError`), or its standard
output does not parse as a number (`ValueError` from `float(...)`). -/
inductive ProbeErr where
  | calledProcessError
  | valueError
deriving DecidableEq

/-- Model of `detect_color_mode` (advanced script).  The input is the probe
outcome: `Except.ok s` is a successful probe whose stdout parsed to the
saturation mean `s` (an exact rational standing for the parsed float), and
`Except.error e` is a failed or unparseable probe.  The result is the resolved
mode string together with whether the fallback warning was logged.  The source
returns `'color'` when `saturation > 0.05`, else `'bw'`, and on
`CalledProcessError` or `ValueError` logs a warning and returns `'bw'`. -/
def detect_color_mode (probe : Except ProbeErr ℚ) : String × Bool :=
  match probe with
  | Except.ok saturation =>
      if SATURATION_THRESHOLD < saturation then ("color", false) else ("bw", false)
  | Except.error _ => ("bw", true)

/-- Command construction of the advanced `clean_png` after mode resolution:
`cmd = [magick, src]`, then `-level LEVEL_ADJUSTMENT`, then `-negate` when
`invert_mode == 'on'`, then the color branch (`-dither None -colors 8
-colorspace Gray -threshold 65%`) when the resolved mode equals `'color'`,
else the bw branch (`-alpha remove -alpha off -colorspace Gray -threshold
65%`), then the destination. -/
def buildCleanCmd (magick src dst m invert_mode : String) : List String :=
  let cmd := [magick, src]
  let cmd := cmd ++ ["-level", LEVEL_ADJUSTMENT]
  let cmd := if invert_mode = "on" then cmd ++ ["-negate"] else cmd
  let cmd :=
    if m = "color" then
      cmd ++ ["-dither", "None", "-colors", POSTERIZE_COLORS,
              "-colorspace", "Gray", "-threshold", THRESHOLD_PERCENT]
    else
      cmd ++ ["-alpha", "remove", "-alpha", "off",
              "-colorspace", "Gray", "-threshold", THRESHOLD_PERCENT]
  cmd ++ [dst]

/-- Result of one advanced `clean_png` call: the mode after resolution, whether
the auto-detection fallback warning was logged, and the transform command
passed to the raster editor. -/
structure CleanResult where
  resolvedMode : String
  warned : Bool
  cmd : List String
deriving DecidableEq

/-- Model of the advanced `clean_png`.  When `mode = 'auto'` the mode is first
resolved through `detect_color_mode` (with `probe` the probe outcome);
otherwise the given mode is used as is.  The transform command is then built
exactly as in the source (see `buildCleanCmd`). -/
def clean_png (magick src dst mode invert_mode : String)
    (probe : Except ProbeErr ℚ) : CleanResult :=
  let r := if mode = "auto" then detect_color_mode probe else (mode, false)
  { resolvedMode := r.1, warned := r.2,
    cmd := buildCleanCmd magick src dst r.1 invert_mode }

/-- Command of the basic script's `clean_png`: a fixed transform with no level
step, no negate step and no mode branch
(`-alpha remove -alpha off -colorspace Gray -threshold 60%`). -/
def clean_png_basic_cmd (magick src dst : String) : List String :=
  [magick, src,
   "-alpha", "remove",
   "-alpha", "off",
   "-colorspace", "Gray",
   "-threshold", THRESHOLD_PERCENT_BASIC,
   dst]

/-- Exit statuses of the two processes of `trace_svg`: `tracerExit` is the
potrace (downstream) status, `upstreamExit` the magick (upstream) status. -/
structure TraceEnv where
  tracerExit : Nat
  upstreamExit : Nat
deriving DecidableEq

/-- Observable outcome of one `trace_svg` call. -/
structure TraceResult where
  waitedTracer : Bool
  waitedUpstream : Bool
  failed : Bool
  loggedError : Bool
deriving DecidableEq

/-- Model of `trace_svg` (identical in both scripts).  `subprocess.run` on the
potrace command always waits for the tracer; with `check=True` a nonzero
tracer status raises `CalledProcessError`, which the handler logs and
re-raises, so the following `p1.wait()` on the upstream magick process is
executed only when the tracer exited zero.  The upstream status is never
inspected, so it never makes the call fail. -/
def trace_svg (env : TraceEnv) : TraceResult :=
  if env.tracerExit == 0 then
    { waitedTracer := true, waitedUpstream := true, failed := false, loggedError := false }
  else
    { waitedTracer := true, waitedUpstream := false, failed := true, loggedError := true }

/-- Whether the relocation loop of `main` would relocate this root entry: it
must be a regular file, not one of the two explicitly skipped names
(`process_coloring_pipeline.py`, `README.md` — the same tuple in both
scripts), and its lowercased suffix must be supported. -/
def is_relocatable (f : FsFile) : Bool :=
  f.isFile
    && !(f.name == "process_coloring_pipeline.py" || f.name == "README.md")
    && SUPPORTED_EXTS.contains (lowerString f.ext)

/-- Outcome of the relocation loop of `main`: the logged move/skip events in
loop order, the files remaining in the workspace root, and the contents of the
input directory afterwards. -/
structure RelocateResult where
  actions : List Event
  rootAfter : List FsFile
  inputAfter : List FsFile
deriving DecidableEq

/-- Model of the relocation loop of `main` (identical in both scripts).  Root
entries are visited in order; an entry that is not a regular relocatable image
stays in the root; if a same-named file already exists in the input directory
at that point, the entry stays in the root and a skip notice is logged;
otherwise the entry is moved (removed from the root, appended to the input
directory) and the move is logged.  The `target.exists()` check is against the
input directory as already extended by earlier moves of the same loop. -/
def relocate : List FsFile → List FsFile → RelocateResult
  | [], dir => { actions := [], rootAfter := [], inputAfter := dir }
  | e :: rest, dir =>
    if is_relocatable e = false then
      let r := relocate rest dir
      { actions := r.actions, rootAfter := e :: r.rootAfter, inputAfter := r.inputAfter }
    else if dir.any (fun g => g.name == e.name) then
      let r := relocate rest dir
      { actions := Event.skipMoveLogged e.name :: r.actions,
        rootAfter := e :: r.rootAfter, inputAfter := r.inputAfter }
    else
      let r := relocate rest (dir ++ [e])
      { actions := Event.movedFile e.name :: r.actions,
        rootAfter := r.rootAfter, inputAfter := r.inputAfter }

/-- Outcome of the startup tool checks: the successful resolutions logged, and
whether all three tools were found. -/
structure ToolCheck where
  events : List Event
  allFound : Bool
deriving DecidableEq

/-- Model of the three `require_tool` calls of `main`, in source order
(magick, inkscape, potrace).  `require_tool` calls `sys.exit(1)` at the first
missing tool, so later tools are not checked. -/
def checkTools (avail : String → Bool) : ToolCheck :=
  if avail "magick" = false then
    { events := [], allFound := false }
  else if avail "inkscape" = false then
    { events := [Event.toolChecked "magick"], allFound := false }
  else if avail "potrace" = false then
    { events := [Event.toolChecked "magick", Event.toolChecked "inkscape"], allFound := false }
  else
    { events := [Event.toolChecked "magick", Event.toolChecked "inkscape",
                 Event.toolChecked "potrace"],
      allFound := true }

/-- The skip condition of the driver loop:
`outputs_exist and not OVERWRITE`, where `outputs_exist` is the existence of
all four derived-artifact paths of the file's stem. -/
def skipCond (overwrite : Bool) (existing : List String) (f : FsFile) : Bool :=
  ((derived_paths f.stem).all fun p => existing.contains p) && !overwrite

/-- Model of one iteration of the driver loop of `main` for one input file.
`ok` gives the success of each external stage invocation for this file;
`existing` is the set (as a list) of artifact paths existing when the file is
reached.  The iteration first logs `Processing:`, then either skips (when all
four artifacts exist and overwrite is not forced) or runs the four stages in
fixed order inside one try block: the first failing stage is invoked, the
failure is logged with the file name, and the remaining stages are not
invoked.  Each successful stage adds its artifact path. -/
def process_file (overwrite : Bool) (ok : Stage → Bool) (existing : List String)
    (f : FsFile) : List Event × List String :=
  if skipCond overwrite existing f then
    ([Event.processingLogged f.name, Event.skipLogged f.name], existing)
  else if ok Stage.clean = false then
    ([Event.processingLogged f.name, Event.stageInvoked f.name Stage.clean,
      Event.failLogged f.name], existing)
  else if ok Stage.trace = false then
    ([Event.processingLogged f.name, Event.stageInvoked f.name Stage.clean,
      Event.stageInvoked f.name Stage.trace, Event.failLogged f.name],
     existing ++ [cleaned_path f.stem])
  else if ok Stage.exportPng = false then
    ([Event.processingLogged f.name, Event.stageInvoked f.name Stage.clean,
      Event.stageInvoked f.name Stage.trace, Event.stageInvoked f.name Stage.exportPng,
      Event.failLogged f.name],
     existing ++ [cleaned_path f.stem, svg_path f.stem])
  else if ok Stage.exportPdf = false then
    ([Event.processingLogged f.name, Event.stageInvoked f.name Stage.clean,
      Event.stageInvoked f.name Stage.trace, Event.stageInvoked f.name Stage.exportPng,
      Event.stageInvoked f.name Stage.exportPdf, Event.failLogged f.name],
     existing ++ [cleaned_path f.stem, svg_path f.stem, png_path f.stem])
  else
    ([Event.processingLogged f.name, Event.stageInvoked f.name Stage.clean,
      Event.stageInvoked f.name Stage.trace, Event.stageInvoked f.name Stage.exportPng,
      Event.stageInvoked f.name Stage.exportPdf],
     existing ++ [cleaned_path f.stem, svg_path f.stem, png_path f.stem, pdf_path f.stem])

/-- Model of the driver loop of `main`: the input files are processed strictly
in order, each against the artifact state left by its predecessors; the events
of all iterations are concatenated.  An iteration's failure never stops the
loop (the source catches every exception inside the loop body). -/
def drive (overwrite : Bool) (ok : String → Stage → Bool) :
    List String → List FsFile → List Event × List String
  | existing, [] => ([], existing)
  | existing, f :: rest =>
    let p := process_file overwrite (ok f.name) existing f
    let d := drive overwrite ok p.2 rest
    (p.1 ++ d.1, d.2)

/-- Insertion of a file into a name-sorted list (helper for `sortByName`). -/
def insertByName (f : FsFile) : List FsFile → List FsFile
  | [] => [f]
  | g :: rest =>
    if f.name ≤ g.name then f :: g :: rest else g :: insertByName f rest

/-- Name-sorted permutation of a file list, modelling `sorted([...])` over the
input directory listing. -/
def sortByName : List FsFile → List FsFile
  | [] => []
  | f :: rest => insertByName f (sortByName rest)

/-- The complete environment of one run: command-line flags, state of the
workspace, availability of the external tools, and the outcome each external
stage invocation would have. -/
structure Env where
  helpFlag : Bool
  overwrite : Bool
  readmeExists : Bool
  readmeText : String
  rootEntries : List FsFile
  inputDir : List FsFile
  toolAvailable : String → Bool
  stageOk : String → Stage → Bool
  preexisting : List String

/-- Result of one run: the ordered event trace and the process exit status. -/
structure RunResult where
  events : List Event
  exit : Nat

/-- Model of `main` (the control flow is identical in both scripts).  With the
usage flag, the README content (or a not-found message) is printed and the
process exits 0 before any other step.  Otherwise: the five stage directories
are created, the relocation loop runs, then the three tool checks run (exit 1
at the first missing tool), then the supported files of the input directory
are gathered sorted by name; an empty input set logs a warning and the run
ends with exit 0; otherwise the driver loop runs and the process exits 0. -/
def main_run (env : Env) : RunResult :=
  if env.helpFlag then
    { events := [Event.printedUsage
        (if env.readmeExists then env.readmeText else "README.md not found.")],
      exit := 0 }
  else
    let mkdirEvents := STAGE_DIRS.map Event.mkdirDone
    let r := relocate env.rootEntries env.inputDir
    let tc := checkTools env.toolAvailable
    if tc.allFound = false then
      { events := mkdirEvents ++ r.actions ++ tc.events, exit := 1 }
    else
      let files := sortByName (r.inputAfter.filter
        (fun f => f.isFile && SUPPORTED_EXTS.contains (lowerString f.ext)))
      if files.isEmpty then
        { events := mkdirEvents ++ r.actions ++ tc.events ++ [Event.warnedNoInput],
          exit := 0 }
      else
        let d := drive env.overwrite env.stageOk env.preexisting files
        { events := mkdirEvents ++ r.actions ++ tc.events ++ d.1, exit := 0 }

/-- Recognizer for the per-file `Processing:` log event, used to count how
many input files the driver loop reaches. -/
def isProcessingEvent : Event → Bool
  | Event.processingLogged _ => true
  | _ => false

/-- Concrete run environment: one loose image in the workspace root and no
external tool available. -/
def envMissingTool : Env :=
  Env.mk false false true "" [FsFile.mk "cat" ".jpg" true 1] []
    (fun _ => false) (fun _ _ => true) []

/-- Concrete run environment: usage flag set and no README present. -/
def envUsage : Env :=
  Env.mk true false false "" [] [] (fun _ => true) (fun _ _ => true) []

/-- Concrete run environment: two input files, all tools available, every
stage invocation for `cat.png` failing. -/
def envOneFailing : Env :=
  Env.mk false false true "" []
    [FsFile.mk "cat" ".png" true 0, FsFile.mk "dog" ".png" true 1]
    (fun _ => true) (fun n _ => !(n == "cat.png")) []

/-- Concrete workspace root for the relocation witness: a loose `cat.png`
colliding with the input directory and a loose `dog.png` that does not. -/
def witnessRoot : List FsFile :=
  [FsFile.mk "cat" ".png" true 1, FsFile.mk "dog" ".png" true 2]

/-- Concrete input directory for the relocation witness. -/
def witnessInput : List FsFile := [FsFile.mk "cat" ".png" true 0]

/-! Theorems. -/

/-- C4: in mode `auto`, the resolved mode is `color` if and only if the
measured mean saturation strictly exceeds 0.05; a measurement exactly equal
to 0.05 resolves to `bw`.  The resolution is a function of the measurement by
construction, so it is deterministic. -/
theorem auto_mode_color_iff_saturation_above_threshold :
    ∀ (magick src dst inv : String) (s : ℚ),
      ((clean_png magick src dst "auto" inv (Except.ok s)).resolvedMode = "color"
        ↔ SATURATION_THRESHOLD < s)
      ∧ (clean_png magick src dst "auto" inv
          (Except.ok SATURATION_THRESHOLD)).resolvedMode = "bw" := by
  intro magick src dst inv s
  constructor
  · by_cases h : SATURATION_THRESHOLD < s
    · simp [clean_png, detect_color_mode, h]
    · simp [clean_png, detect_color_mode, h]
  · simp [clean_png, detect_color_mode]

/-- C4 witness: a measurement of 0.06 resolves to `color`, by the threshold
theorem applied at a concrete input. -/
theorem auto_mode_color_iff_saturation_above_threshold_witness :
    (clean_png "magick" "s.png" "d.png" "auto" "off"
      (Except.ok (6 / 100))).resolvedMode = "color" :=
  ((auto_mode_color_iff_saturation_above_threshold "magick" "s.png" "d.png" "off"
    (6 / 100)).1).mpr (by norm_num [SATURATION_THRESHOLD])

/-- C5: a failed or unparseable saturation probe resolves mode `auto` to `bw`
with a warning logged, without failing the file: the clean transform command
is still built (with the bw branch) and processing continues. -/
theorem probe_failure_falls_back_to_bw :
    ∀ (magick src dst inv : String) (e : ProbeErr),
      (clean_png magick src dst "auto" inv (Except.error e)).resolvedMode = "bw"
      ∧ (clean_png magick src dst "auto" inv (Except.error e)).warned = true
      ∧ (clean_png magick src dst "auto" inv (Except.error e)).cmd
          = [magick, src, "-level", LEVEL_ADJUSTMENT]
            ++ (if inv = "on" then ["-negate"] else [])
            ++ ["-alpha", "remove", "-alpha", "off", "-colorspace", "Gray",
                "-threshold", THRESHOLD_PERCENT] ++ [dst] := by
  intro magick src dst inv e
  refine ⟨by simp [clean_png, detect_color_mode], by simp [clean_png, detect_color_mode], ?_⟩
  by_cases hi : inv = "on"
  · simp [clean_png, detect_color_mode, buildCleanCmd, hi]
  · simp [clean_png, detect_color_mode, buildCleanCmd, hi]

/-- C5 witness: the fallback theorem applied at a concrete input (probe exits
nonzero, invert off). -/
theorem probe_failure_falls_back_to_bw_witness :
    (clean_png "magick" "s.png" "d.png" "auto" "off"
      (Except.error ProbeErr.calledProcessError)).resolvedMode = "bw" :=
  (probe_failure_falls_back_to_bw "magick" "s.png" "d.png" "off"
    ProbeErr.calledProcessError).1

/-- C6 counterexample: a concrete clean-stage invocation of the basic
script's `clean_png` whose transform sequence contains neither the level
contrast stretch the claim requires first nor any negate step — the claimed
fixed order is false for the basic variant's clean invocations. -/
theorem basic_clean_has_no_level_step :
    "-level" ∉ clean_png_basic_cmd "magick" "input_png/cat.png" "cleaned_png/cat.png"
    ∧ "-negate" ∉ clean_png_basic_cmd "magick" "input_png/cat.png" "cleaned_png/cat.png" := by
  decide

/-- C6 amended: in the advanced variant, every clean transform command is, in
fixed order: the source, the level contrast stretch, the negate step exactly
when invert is `on`, then the resolved-mode branch (color: quantize without
dithering, grayscale, threshold; bw: strip alpha, grayscale, same threshold),
then the destination.  The basic variant's clean stage, which has no mode or
invert parameter, always passes the fixed sequence: strip alpha, grayscale,
binarize at its own 60% threshold — with no level and no negate step. -/
theorem clean_transform_order_per_variant :
    ∀ (magick src dst mode inv : String) (probe : Except ProbeErr ℚ),
      ((clean_png magick src dst mode inv probe).cmd
        = [magick, src] ++ ["-level", LEVEL_ADJUSTMENT]
          ++ (if inv = "on" then ["-negate"] else [])
          ++ (if (clean_png magick src dst mode inv probe).resolvedMode = "color" then
                ["-dither", "None", "-colors", POSTERIZE_COLORS,
                 "-colorspace", "Gray", "-threshold", THRESHOLD_PERCENT]
              else
                ["-alpha", "remove", "-alpha", "off",
                 "-colorspace", "Gray", "-threshold", THRESHOLD_PERCENT])
          ++ [dst])
      ∧ clean_png_basic_cmd magick src dst
          = [magick, src]
            ++ ["-alpha", "remove", "-alpha", "off",
                "-colorspace", "Gray", "-threshold", THRESHOLD_PERCENT_BASIC]
            ++ [dst] := by
  intro magick src dst mode inv probe
  have key : ∀ m : String, buildCleanCmd magick src dst m inv
      = [magick, src] ++ ["-level", LEVEL_ADJUSTMENT]
        ++ (if inv = "on" then ["-negate"] else [])
        ++ (if m = "color" then
              ["-dither", "None", "-colors", POSTERIZE_COLORS,
               "-colorspace", "Gray", "-threshold", THRESHOLD_PERCENT]
            else
              ["-alpha", "remove", "-alpha", "off",
               "-colorspace", "Gray", "-threshold", THRESHOLD_PERCENT])
        ++ [dst] := by
    intro m
    by_cases hm : m = "color" <;> by_cases hi : inv = "on" <;>
      simp [buildCleanCmd, hm, hi]
  exact ⟨key (clean_png magick src dst mode inv probe).resolvedMode,
         by simp [clean_png_basic_cmd]⟩

/-- C6 witness: the per-variant transform-order theorem applied at a concrete
input (forced color mode, invert on). -/
theorem clean_transform_order_per_variant_witness :
    (clean_png "magick" "s.png" "d.png" "color" "on"
        (Except.ok 0)).cmd
      = ["magick", "s.png", "-level", "0%,80%", "-negate",
         "-dither", "None", "-colors", "8",
         "-colorspace", "Gray", "-threshold", "65%", "d.png"] := by
  have h := (clean_transform_order_per_variant "magick" "s.png" "d.png" "color" "on"
    (Except.ok 0)).1
  simpa using h

/-- C7 counterexample: when the tracer exits nonzero, `trace_svg` raises out
of `subprocess.run` before reaching `p1.wait()`, so the upstream process is
not awaited — refuting the claim that the stage waits for both
pipe-connected processes to terminate in every case. -/
theorem trace_nonzero_tracer_skips_upstream_wait :
    (trace_svg (TraceEnv.mk 1 0)).failed = true
    ∧ (trace_svg (TraceEnv.mk 1 0)).waitedUpstream = false := by decide

/-- C7 amended: the tracer is always awaited and its nonzero exit is a hard
failure for the file; the upstream converter is awaited exactly when the
tracer exits zero, and the upstream status never by itself fails the file. -/
theorem trace_exit_semantics (env : TraceEnv) :
    (trace_svg env).waitedTracer = true
    ∧ ((trace_svg env).failed = true ↔ env.tracerExit ≠ 0)
    ∧ ((trace_svg env).waitedUpstream = true ↔ env.tracerExit = 0)
    ∧ (env.tracerExit = 0 → (trace_svg env).failed = false) := by
  by_cases h : env.tracerExit = 0 <;> simp [trace_svg, h]

/-- C7 witness: with a zero tracer exit and a nonzero upstream exit the file
does not fail, by the exit-semantics theorem at a concrete input. -/
theorem trace_exit_semantics_witness :
    (trace_svg (TraceEnv.mk 0 1)).failed = false :=
  (trace_exit_semantics (TraceEnv.mk 0 1)).2.2.2 rfl

/-- C10: the four derived-artifact paths are a function of the stem alone,
with fixed extensions (.png, .svg, .png, .pdf), independent of the source
file's extension. -/
theorem derived_paths_depend_only_on_stem (f g : FsFile) (h : f.stem = g.stem) :
    derived_paths_of f = derived_paths_of g
    ∧ (∃ p, cleaned_path f.stem = p ++ ".png")
    ∧ (∃ p, svg_path f.stem = p ++ ".svg")
    ∧ (∃ p, png_path f.stem = p ++ ".png")
    ∧ (∃ p, pdf_path f.stem = p ++ ".pdf") :=
  ⟨by simp [derived_paths_of, h],
   ⟨"cleaned_png/" ++ f.stem, rfl⟩,
   ⟨"svg/" ++ f.stem, rfl⟩,
   ⟨"png/" ++ f.stem, rfl⟩,
   ⟨"pdf/" ++ f.stem, rfl⟩⟩

/-- C10 witness: `cat.jpg` and `cat.png` map to identical derived-artifact
path lists, by the stem-only theorem at a concrete input. -/
theorem derived_paths_depend_only_on_stem_witness :
    derived_paths_of (FsFile.mk "cat" ".jpg" true 0)
      = derived_paths_of (FsFile.mk "cat" ".png" true 1) :=
  (derived_paths_depend_only_on_stem (FsFile.mk "cat" ".jpg" true 0)
    (FsFile.mk "cat" ".png" true 1) rfl).1

/-- C2: a file whose stem has all four derived artifacts existing is, without
the force flag, skipped with zero external invocations and a skip log entry;
otherwise (an artifact missing or the flag set) the four stages are all
invoked in order — regardless of which artifacts already existed, i.e. with
no partial-stage resume — and all four artifact paths are regenerated
(stated under stage success; stage failure is the subject of the
error-containment claim). -/
theorem skip_iff_all_artifacts_exist (overwrite : Bool) (ok : Stage → Bool)
    (existing : List String) (f : FsFile) :
    (((derived_paths f.stem).all fun p => existing.contains p) = true →
      overwrite = false →
      process_file overwrite ok existing f
        = ([Event.processingLogged f.name, Event.skipLogged f.name], existing))
    ∧ ((((derived_paths f.stem).all fun p => existing.contains p) = false
          ∨ overwrite = true) →
        (∀ s, ok s = true) →
        process_file overwrite ok existing f
          = ([Event.processingLogged f.name,
              Event.stageInvoked f.name Stage.clean,
              Event.stageInvoked f.name Stage.trace,
              Event.stageInvoked f.name Stage.exportPng,
              Event.stageInvoked f.name Stage.exportPdf],
             existing ++ derived_paths f.stem)) := by
  constructor
  · intro hall how
    have hs : skipCond overwrite existing f = true := by
      unfold skipCond
      rw [hall, how]
      rfl
    simp [process_file, hs]
  · intro hcase hok
    have hs : skipCond overwrite existing f = false := by
      unfold skipCond
      rcases hcase with h | h
      · rw [h]; simp
      · rw [h]; simp
    simp [process_file, hs, hok, derived_paths]

/-- C2 witness: with all four artifacts of stem `cat` existing and no force
flag, the file is skipped with zero invocations, by the skip theorem at a
concrete input. -/
theorem skip_iff_all_artifacts_exist_witness :
    process_file false (fun _ => true) (derived_paths "cat")
        (FsFile.mk "cat" ".png" true 0)
      = ([Event.processingLogged (FsFile.mk "cat" ".png" true 0).name,
          Event.skipLogged (FsFile.mk "cat" ".png" true 0).name],
         derived_paths "cat") :=
  (skip_iff_all_artifacts_exist false (fun _ => true) (derived_paths "cat")
    (FsFile.mk "cat" ".png" true 0)).1 (by decide) rfl

/-- Each driver iteration logs `Processing:` exactly once, whatever the
skip decision and stage outcomes. -/
theorem process_file_one_processing (ow : Bool) (ok : Stage → Bool)
    (ex : List String) (f : FsFile) :
    ((process_file ow ok ex f).1.countP fun a => isProcessingEvent a) = 1 := by
  unfold process_file
  split_ifs <;> simp [List.countP_cons, isProcessingEvent]

/-- The driver loop reaches every input file: the event trace contains one
`Processing:` entry per file, whatever failures occurred. -/
theorem drive_reaches_every_file (ow : Bool) (ok : String → Stage → Bool) :
    ∀ (files : List FsFile) (ex : List String),
      ((drive ow ok ex files).1.countP fun a => isProcessingEvent a)
        = files.length := by
  intro files
  induction files with
  | nil => intro ex; simp [drive]
  | cons f rest ih =>
    intro ex
    simp [drive, List.countP_append, process_file_one_processing, ih]
    omega

/-- C3: per-file stage failures are contained.  With the tools available, the
run exits 0 whatever the stage outcomes; the driver loop reaches every input
file (one `Processing:` entry per file); and within one file, the first
failing stage is the last invocation for that file — the failure is logged
with the file name, and the remaining stages are not invoked. -/
theorem stage_failure_contained (env : Env) (hH : env.helpFlag = false)
    (hm : env.toolAvailable "magick" = true)
    (hi : env.toolAvailable "inkscape" = true)
    (hp : env.toolAvailable "potrace" = true) :
    (main_run env).exit = 0
    ∧ (∀ (ow : Bool) (ok : String → Stage → Bool) (ex : List String)
        (files : List FsFile),
        ((drive ow ok ex files).1.countP fun a => isProcessingEvent a)
          = files.length)
    ∧ (∀ (ow : Bool) (ok : Stage → Bool) (ex : List String) (f : FsFile),
        skipCond ow ex f = false →
        ((ok Stage.clean = false →
            (process_file ow ok ex f).1
              = [Event.processingLogged f.name,
                 Event.stageInvoked f.name Stage.clean,
                 Event.failLogged f.name])
         ∧ (ok Stage.clean = true → ok Stage.trace = false →
            (process_file ow ok ex f).1
              = [Event.processingLogged f.name,
                 Event.stageInvoked f.name Stage.clean,
                 Event.stageInvoked f.name Stage.trace,
                 Event.failLogged f.name])
         ∧ (ok Stage.clean = true → ok Stage.trace = true →
              ok Stage.exportPng = false →
            (process_file ow ok ex f).1
              = [Event.processingLogged f.name,
                 Event.stageInvoked f.name Stage.clean,
                 Event.stageInvoked f.name Stage.trace,
                 Event.stageInvoked f.name Stage.exportPng,
                 Event.failLogged f.name])
         ∧ (ok Stage.clean = true → ok Stage.trace = true →
              ok Stage.exportPng = true → ok Stage.exportPdf = false →
            (process_file ow ok ex f).1
              = [Event.processingLogged f.name,
                 Event.stageInvoked f.name Stage.clean,
                 Event.stageInvoked f.name Stage.trace,
                 Event.stageInvoked f.name Stage.exportPng,
                 Event.stageInvoked f.name Stage.exportPdf,
                 Event.failLogged f.name]))) := by
  have htc : (checkTools env.toolAvailable).allFound = true := by
    simp [checkTools, hm, hi, hp]
  refine ⟨?_, ?_, ?_⟩
  · simp only [main_run, hH, htc, Bool.false_eq_true, if_false]
    split
    · rename_i h; exact Bool.noConfusion h
    · split <;> rfl
  · intro ow ok ex files
    exact drive_reaches_every_file ow ok files ex
  · intro ow ok ex f hskip
    refine ⟨?_, ?_, ?_, ?_⟩
    · intro h1; simp [process_file, hskip, h1]
    · intro h1 h2; simp [process_file, hskip, h1, h2]
    · intro h1 h2 h3; simp [process_file, hskip, h1, h2, h3]
    · intro h1 h2 h3 h4; simp [process_file, hskip, h1, h2, h3, h4]

/-- C3 witness: a run in which every stage of `cat.png` fails still exits 0,
by the containment theorem at a concrete environment. -/
theorem stage_failure_contained_witness :
    (main_run envOneFailing).exit = 0 :=
  (stage_failure_contained envOneFailing rfl rfl rfl rfl).1

/-- Files already in the input directory are never removed by relocation. -/
theorem relocate_input_mono :
    ∀ (entries dir : List FsFile) (g : FsFile),
      g ∈ dir → g ∈ (relocate entries dir).inputAfter := by
  intro entries
  induction entries with
  | nil => intro dir g hg; simpa [relocate] using hg
  | cons e rest ih =>
    intro dir g hg
    cases hr : is_relocatable e with
    | false => simp [relocate, hr]; exact ih dir g hg
    | true =>
      cases hd : dir.any fun x => x.name == e.name with
      | true => simp [relocate, hr, hd]; exact ih dir g hg
      | false => simp [relocate, hr, hd]; exact ih (dir ++ [e]) g (by simp [hg])

/-- Every file left in the root after relocation was a root entry before. -/
theorem relocate_root_sub :
    ∀ (entries dir : List FsFile) (x : FsFile),
      x ∈ (relocate entries dir).rootAfter → x ∈ entries := by
  intro entries
  induction entries with
  | nil => intro dir x hx; simp [relocate] at hx
  | cons e rest ih =>
    intro dir x hx
    cases hr : is_relocatable e with
    | false =>
      simp [relocate, hr] at hx
      rcases hx with rfl | hx
      · exact List.mem_cons_self x rest
      · exact List.mem_cons_of_mem e (ih dir x hx)
    | true =>
      cases hd : dir.any fun g => g.name == e.name with
      | true =>
        simp [relocate, hr, hd] at hx
        rcases hx with rfl | hx
        · exact List.mem_cons_self x rest
        · exact List.mem_cons_of_mem e (ih dir x hx)
      | false =>
        simp [relocate, hr, hd] at hx
        exact List.mem_cons_of_mem e (ih (dir ++ [e]) x hx)

/-- Collision case of relocation: a relocatable root entry whose name already
exists in the input directory is skipped with a logged notice and stays in the
root. -/
theorem relocate_collision :
    ∀ (entries dir : List FsFile) (e : FsFile),
      e ∈ entries → is_relocatable e = true →
      (∃ g ∈ dir, g.name = e.name) →
      Event.skipMoveLogged e.name ∈ (relocate entries dir).actions
      ∧ e ∈ (relocate entries dir).rootAfter := by
  intro entries
  induction entries with
  | nil => intro dir e he; simp at he
  | cons h rest ih =>
    intro dir e he hrel hex
    rcases List.mem_cons.mp he with heq | hmem
    · subst heq
      have hd : (dir.any fun g => g.name == e.name) = true := by
        rcases hex with ⟨g, hg, hname⟩
        exact List.any_eq_true.mpr ⟨g, hg, by simp [hname]⟩
      simp [relocate, hrel, hd]
    · cases hr : is_relocatable h with
      | false =>
        have hih := ih dir e hmem hrel hex
        simp [relocate, hr]
        exact ⟨hih.1, Or.inr hih.2⟩
      | true =>
        cases hd : dir.any fun g => g.name == h.name with
        | true =>
          have hih := ih dir e hmem hrel hex
          simp [relocate, hr, hd]
          exact ⟨Or.inr hih.1, Or.inr hih.2⟩
        | false =>
          have hex2 : ∃ g ∈ dir ++ [h], g.name = e.name := by
            rcases hex with ⟨g, hg, hn⟩
            exact ⟨g, by simp [hg], hn⟩
          have hih := ih (dir ++ [h]) e hmem hrel hex2
          simp [relocate, hr, hd]
          exact ⟨hih.1, hih.2⟩

/-- Move case of relocation: a relocatable root entry with no same-named file
in the input directory is moved, not copied — it is logged as moved, appears
in the input directory afterwards, and no longer appears in the root
(assuming the root directory listing has no duplicate names, as a real
directory cannot). -/
theorem relocate_move :
    ∀ (entries dir : List FsFile) (e : FsFile),
      e ∈ entries → is_relocatable e = true →
      (∀ g ∈ dir, g.name ≠ e.name) →
      (entries.map FsFile.name).Nodup →
      Event.movedFile e.name ∈ (relocate entries dir).actions
      ∧ e ∈ (relocate entries dir).inputAfter
      ∧ e ∉ (relocate entries dir).rootAfter := by
  intro entries
  induction entries with
  | nil => intro dir e he; simp at he
  | cons h rest ih =>
    intro dir e he hrel hdir hnodup
    have hpair : (∀ x ∈ rest, ¬FsFile.name x = FsFile.name h)
        ∧ (List.map FsFile.name rest).Nodup := by simpa using hnodup
    obtain ⟨hhead, hrest⟩ := hpair
    rcases List.mem_cons.mp he with heq | hmem
    · subst heq
      have hd : (dir.any fun g => g.name == e.name) = false := by
        apply List.any_eq_false.mpr
        intro g hg
        simpa using hdir g hg
      simp [relocate, hrel, hd]
      refine ⟨relocate_input_mono rest (dir ++ [e]) e (by simp), ?_⟩
      intro hmem2
      have hin := relocate_root_sub rest (dir ++ [e]) e hmem2
      exact hhead e hin rfl
    · have hne : h.name ≠ e.name := by
        intro hcontr
        exact hhead e hmem hcontr.symm
      cases hr : is_relocatable h with
      | false =>
        have hih := ih dir e hmem hrel hdir hrest
        simp [relocate, hr]
        refine ⟨hih.1, hih.2.1, ?_, hih.2.2⟩
        intro hcontr
        exact hne (by rw [hcontr])
      | true =>
        cases hd : dir.any fun g => g.name == h.name with
        | true =>
          have hih := ih dir e hmem hrel hdir hrest
          simp [relocate, hr, hd]
          refine ⟨hih.1, hih.2.1, ?_, hih.2.2⟩
          intro hcontr
          exact hne (by rw [hcontr])
        | false =>
          have hdir2 : ∀ g ∈ dir ++ [h], g.name ≠ e.name := by
            intro g hg
            rcases List.mem_append.mp hg with h1 | h1
            · exact hdir g h1
            · have : g = h := by simpa using h1
              subst this
              exact hne
          have hih := ih (dir ++ [h]) e hmem hrel hdir2 hrest
          simp [relocate, hr, hd]
          exact ⟨Or.inr hih.1, hih.2.1, hih.2.2⟩

/-- C8: during workspace-root relocation, a supported loose file whose name
already exists in the input directory is left in place, the existing input
file survives untouched, and a notice is logged; one whose name is new is
moved (not copied) into the input directory. -/
theorem relocation_semantics (rootEntries inputDir : List FsFile) (e : FsFile)
    (he : e ∈ rootEntries) (hrel : is_relocatable e = true)
    (hnodup : (rootEntries.map FsFile.name).Nodup) :
    ((∃ g ∈ inputDir, g.name = e.name) →
       Event.skipMoveLogged e.name ∈ (relocate rootEntries inputDir).actions
       ∧ e ∈ (relocate rootEntries inputDir).rootAfter
       ∧ ∀ g ∈ inputDir, g ∈ (relocate rootEntries inputDir).inputAfter)
    ∧ ((∀ g ∈ inputDir, g.name ≠ e.name) →
       Event.movedFile e.name ∈ (relocate rootEntries inputDir).actions
       ∧ e ∈ (relocate rootEntries inputDir).inputAfter
       ∧ e ∉ (relocate rootEntries inputDir).rootAfter) := by
  constructor
  · intro hex
    obtain ⟨h1, h2⟩ := relocate_collision rootEntries inputDir e he hrel hex
    exact ⟨h1, h2, fun g hg => relocate_input_mono rootEntries inputDir g hg⟩
  · intro hall
    exact relocate_move rootEntries inputDir e he hrel hall hnodup

/-- C8 witness: with loose `cat.png` and `dog.png` in the root and a `cat.png`
already in the input directory, `dog.png` is moved into the input directory
and leaves the root, by the relocation theorem at a concrete input. -/
theorem relocation_semantics_witness :
    Event.movedFile (FsFile.mk "dog" ".png" true 2).name
        ∈ (relocate witnessRoot witnessInput).actions
    ∧ FsFile.mk "dog" ".png" true 2 ∈ (relocate witnessRoot witnessInput).inputAfter
    ∧ FsFile.mk "dog" ".png" true 2 ∉ (relocate witnessRoot witnessInput).rootAfter :=
  (relocation_semantics witnessRoot witnessInput (FsFile.mk "dog" ".png" true 2)
    (by decide) (by decide) (by decide)).2 (by decide)

/-- Every relocation action is a move or a skip notice. -/
theorem relocate_actions_cases :
    ∀ (entries dir : List FsFile) (a : Event),
      a ∈ (relocate entries dir).actions →
      (∃ n, a = Event.movedFile n) ∨ (∃ n, a = Event.skipMoveLogged n) := by
  intro entries
  induction entries with
  | nil => intro dir a ha; simp [relocate] at ha
  | cons e rest ih =>
    intro dir a ha
    cases hr : is_relocatable e with
    | false =>
      simp [relocate, hr] at ha
      exact ih dir a ha
    | true =>
      cases hd : dir.any fun g => g.name == e.name with
      | true =>
        simp [relocate, hr, hd] at ha
        rcases ha with rfl | ha
        · exact Or.inr ⟨e.name, rfl⟩
        · exact ih dir a ha
      | false =>
        simp [relocate, hr, hd] at ha
        rcases ha with rfl | ha
        · exact Or.inl ⟨e.name, rfl⟩
        · exact ih (dir ++ [e]) a ha

/-- Every startup tool-check event is a successful tool resolution. -/
theorem checkTools_events_cases (avail : String → Bool) (a : Event) :
    a ∈ (checkTools avail).events → ∃ t, a = Event.toolChecked t := by
  unfold checkTools
  split_ifs <;> intro ha <;> simp at ha
  · exact ⟨"magick", ha⟩
  · rcases ha with rfl | rfl
    · exact ⟨"magick", rfl⟩
    · exact ⟨"inkscape", rfl⟩
  · rcases ha with rfl | rfl | rfl
    · exact ⟨"magick", rfl⟩
    · exact ⟨"inkscape", rfl⟩
    · exact ⟨"potrace", rfl⟩

/-- C1 counterexample: with one supported loose image in the workspace root
and no external tool available, the run exits 1 but the file has already been
relocated into the input directory — the tool-resolution check does not
precede file relocation. -/
theorem missing_tool_still_moves_files :
    (main_run envMissingTool).exit = 1
    ∧ Event.movedFile "cat.jpg" ∈ (main_run envMissingTool).events := by decide

/-- C1 amended: the tool-resolution check runs after directory creation and
workspace-root relocation but before any stage invocation; when a tool is
missing, the process exits with status 1 before any input file is processed
or any stage is invoked (directories may have been created and loose files
already relocated). -/
theorem missing_tool_exits_before_stages (env : Env) (hH : env.helpFlag = false)
    (hmiss : env.toolAvailable "magick" = false
      ∨ env.toolAvailable "inkscape" = false
      ∨ env.toolAvailable "potrace" = false) :
    (main_run env).exit = 1
    ∧ (∀ n s, Event.stageInvoked n s ∉ (main_run env).events)
    ∧ (∀ n, Event.processingLogged n ∉ (main_run env).events) := by
  have htc : (checkTools env.toolAvailable).allFound = false := by
    by_cases h1 : env.toolAvailable "magick" = false
    · simp [checkTools, h1]
    · by_cases h2 : env.toolAvailable "inkscape" = false
      · simp [checkTools, h1, h2]
      · by_cases h3 : env.toolAvailable "potrace" = false
        · simp [checkTools, h1, h2, h3]
        · rcases hmiss with h | h | h
          · exact absurd h h1
          · exact absurd h h2
          · exact absurd h h3
  have hev : (main_run env).events
      = STAGE_DIRS.map Event.mkdirDone
        ++ (relocate env.rootEntries env.inputDir).actions
        ++ (checkTools env.toolAvailable).events := by
    simp [main_run, hH, htc]
  have hnone : ∀ a : Event, a ∈ (main_run env).events →
      (∃ d, a = Event.mkdirDone d) ∨ (∃ n, a = Event.movedFile n)
      ∨ (∃ n, a = Event.skipMoveLogged n) ∨ (∃ t, a = Event.toolChecked t) := by
    intro a ha
    rw [hev] at ha
    rcases List.mem_append.mp ha with ha | ha
    · rcases List.mem_append.mp ha with ha | ha
      · rcases List.mem_map.mp ha with ⟨d, _, hd⟩
        exact Or.inl ⟨d, hd.symm⟩
      · rcases relocate_actions_cases env.rootEntries env.inputDir a ha with h | h
        · exact Or.inr (Or.inl h)
        · exact Or.inr (Or.inr (Or.inl h))
    · exact Or.inr (Or.inr (Or.inr (checkTools_events_cases env.toolAvailable a ha)))
  refine ⟨by simp [main_run, hH, htc], ?_, ?_⟩
  · intro n s hmem
    rcases hnone _ hmem with ⟨d, hd⟩ | ⟨m, hm⟩ | ⟨m, hm⟩ | ⟨t, ht⟩
    · exact Event.noConfusion hd
    · exact Event.noConfusion hm
    · exact Event.noConfusion hm
    · exact Event.noConfusion ht
  · intro n hmem
    rcases hnone _ hmem with ⟨d, hd⟩ | ⟨m, hm⟩ | ⟨m, hm⟩ | ⟨t, ht⟩
    · exact Event.noConfusion hd
    · exact Event.noConfusion hm
    · exact Event.noConfusion hm
    · exact Event.noConfusion ht

/-- C1 witness: the amended theorem applied at the concrete
missing-tool environment. -/
theorem missing_tool_exits_before_stages_witness :
    (main_run envMissingTool).exit = 1 :=
  (missing_tool_exits_before_stages envMissingTool rfl (Or.inl rfl)).1

/-- C9: with the usage flag, the run prints the usage document (or a
not-found message when it is absent) and exits 0 without creating
directories, relocating files, checking tools, or invoking any stage — for
every workspace state. -/
theorem usage_flag_bypasses_pipeline (env : Env) (h : env.helpFlag = true) :
    (main_run env).exit = 0
    ∧ (env.readmeExists = true →
        Event.printedUsage env.readmeText ∈ (main_run env).events)
    ∧ (env.readmeExists = false →
        Event.printedUsage "README.md not found." ∈ (main_run env).events)
    ∧ (∀ d, Event.mkdirDone d ∉ (main_run env).events)
    ∧ (∀ n, Event.movedFile n ∉ (main_run env).events)
    ∧ (∀ n, Event.skipMoveLogged n ∉ (main_run env).events)
    ∧ (∀ t, Event.toolChecked t ∉ (main_run env).events)
    ∧ (∀ n, Event.processingLogged n ∉ (main_run env).events)
    ∧ (∀ n s, Event.stageInvoked n s ∉ (main_run env).events) := by
  have hev : (main_run env).events
      = [Event.printedUsage
          (if env.readmeExists then env.readmeText else "README.md not found.")] := by
    simp [main_run, h]
  refine ⟨by simp [main_run, h], ?_, ?_, ?_, ?_, ?_, ?_, ?_, ?_⟩
  · intro hr; simp [hev, hr]
  · intro hr; simp [hev, hr]
  · intro d; simp [hev]
  · intro n; simp [hev]
  · intro n; simp [hev]
  · intro t; simp [hev]
  · intro n; simp [hev]
  · intro n s; simp [hev]

/-- C9 witness: the usage-flag theorem applied at a concrete environment in
which the usage document is absent: the run still exits 0. -/
theorem usage_flag_bypasses_pipeline_witness :
    (main_run envUsage).exit = 0
    ∧ Event.printedUsage "README.md not found." ∈ (main_run envUsage).events :=
  ⟨(usage_flag_bypasses_pipeline envUsage rfl).1,
   (usage_flag_bypasses_pipeline envUsage rfl).2.2.1 rfl⟩

end ColoringPipeline
